import Mathlib

/-!
Shallow embedding of the waterbalans core (src/waterbalans/eag.py and
src/waterbalans/gaf.py).

Modelling conventions:
- Time-indexed pandas Series and DataFrame columns are functions from an
  abstract time type T to rationals; where iteration order over the index
  matters (the chloride recurrence) the ordered index is an explicit list.
- Python floats are rationals.  The only float behaviour relevant to the
  claims is finiteness: a value that can become non-finite (inf or NaN,
  from an unguarded division by zero) is an Option rational, with none
  standing for any non-finite float.  Non-finite operands propagate
  through addition, multiplication and division, as in IEEE arithmetic.
- OrderedDict is an association list with in-place replacement on existing
  keys and append for new keys.
- Methods that can raise return Except or pair their new state with an
  optional exception; a raise leaves the pre-call state untouched.
-/

namespace Waterbalans

variable {T : Type}

/-- A non-aggregator bucket as eag.py sees it: the OrderedDict key
(bucket.id) and the type label stored in bucket.name (the strings
Verhard, Onverhard, Drain, ... compared against in aggregate_fluxes).
The flux physics inside buckets is external to this core. -/
structure Bucket where
  id : Nat
  name : String
  deriving DecidableEq, Repr

/-- The flux table self.water.fluxes of the water bucket: the directly
renamed columns p, e, s, w, x, q_out of eag.py lines 147-155, the
per-bucket columns q_oa_id and q_ui_id addressed by bucket identity
(eag.py lines 161, 167, 174, 180), and the time index fluxes.index.
The column q_oa_2 renamed to verhard on line 154 is q_oa applied to 2;
that rename is overwritten on line 164 before it is ever read. -/
structure WaterFluxes (T : Type) where
  index : List T
  p : T → ℚ
  e : T → ℚ
  s : T → ℚ
  w : T → ℚ
  x : T → ℚ
  q_out : T → ℚ
  q_oa : Nat → T → ℚ
  q_ui : Nat → T → ℚ

/-- The water aggregator bucket (self.water): identity, area, storage
series and flux table. -/
structure Water (T : Type) where
  id : Nat
  area : ℚ
  storage : T → ℚ
  fluxes : WaterFluxes T

/-- The DataFrame returned by Eag.aggregate_fluxes: one column per
semantic category, sharing the aggregator fluxes index. -/
structure AggFluxes (T : Type) where
  index : List T
  neerslag : T → ℚ
  verdamping : T → ℚ
  kwel : T → ℚ
  wegzijging : T → ℚ
  inlaat : T → ℚ
  uitlaat : T → ℚ
  verhard : T → ℚ
  uitspoeling : T → ℚ
  intrek : T → ℚ
  afstroming : T → ℚ
  drain : T → ℚ

/-- Elementwise clamp of negative entries to zero, the pandas statement
q[q < 0] = 0 of eag.py line 170. -/
def clampNeg (col : T → ℚ) : T → ℚ := fun t => if col t < 0 then 0 else col t

/-- Elementwise clamp of positive entries to zero, the pandas statement
q[q > 0] = 0 of eag.py line 176. -/
def clampPos (col : T → ℚ) : T → ℚ := fun t => if col t > 0 then 0 else col t

/-- Row-wise sum over a list of selected columns, DataFrame.sum(axis=1);
an empty selection sums to zero. -/
def sumCols (cols : List (T → ℚ)) : T → ℚ := fun t => (cols.map fun c => c t).sum

namespace Eag

/-- Eag.aggregate_fluxes (eag.py lines 137-188).  Direct renames come
from the dict d; verhard, uitspoeling, intrek and afstroming are column
selections over the bucket OrderedDict in insertion order, clamped where
the source clamps, then summed row-wise; drain is the constant zero
placeholder of line 186. -/
def aggregate_fluxes (buckets : List Bucket) (wf : WaterFluxes T) : AggFluxes T :=
  let verhardIds := (buckets.filter fun b => b.name = "Verhard").map Bucket.id
  let uitspoelIds :=
    (buckets.filter fun b => b.name = "Verhard" ∨ b.name = "Onverhard").map Bucket.id
  let intrekIds := buckets.map Bucket.id
  let afstroomIds := (buckets.filter fun b => b.name = "Onverhard").map Bucket.id
  { index := wf.index
    neerslag := wf.p
    verdamping := wf.e
    kwel := wf.s
    wegzijging := wf.w
    inlaat := wf.x
    uitlaat := wf.q_out
    verhard := sumCols (verhardIds.map fun i => wf.q_oa i)
    uitspoeling := sumCols (uitspoelIds.map fun i => clampNeg (wf.q_ui i))
    intrek := sumCols (intrekIds.map fun i => clampPos (wf.q_ui i))
    afstroming := sumCols (afstroomIds.map fun i => wf.q_oa i)
    drain := fun _ => 0 }

end Eag

/-- One row of the parameters DataFrame, with the columns read by
eag.py: Bakjes_ID (owning bucket identity), Code (parameter code),
LaagVolgorde (layer order) and Waarde (numeric value). -/
structure ParamRow where
  Bakjes_ID : Nat
  Code : String
  LaagVolgorde : Nat
  Waarde : ℚ
  deriving DecidableEq, Repr

/-- The Python exception surfaced by calculate_chloride_concentration:
the .values[0] lookup on an empty selection (eag.py lines 216-219)
raises IndexError; the payload records which code was being looked up. -/
inductive ChlErr where
  | indexError (code : String)
  deriving DecidableEq, Repr

/-- Float addition on possibly non-finite values: any non-finite operand
yields a non-finite result (inf plus -inf is NaN, still non-finite). -/
def fadd : Option ℚ → Option ℚ → Option ℚ
  | some a, some b => some (a + b)
  | _, _ => none

/-- Float multiplication on possibly non-finite values: any non-finite
operand yields a non-finite result (inf times 0 is NaN). -/
def fmul : Option ℚ → Option ℚ → Option ℚ
  | some a, some b => some (a * b)
  | _, _ => none

/-- Float division on possibly non-finite values: division by zero is
inf or NaN, i.e. non-finite, and non-finite operands propagate. -/
def fdiv : Option ℚ → Option ℚ → Option ℚ
  | some a, some b => if b = 0 then none else some (a / b)
  | _, _ => none

/-- The in-loop incoming mass fluxes.loc[t, C_params.index].multiply(C_params).sum()
with the fixed C_params table of eag.py lines 203-212, in its insertion
order neerslag 6, kwel 400, verhard 10, drain 70, uitspoeling 70,
afstroming 35, inlaat 100. -/
def massIn (agg : AggFluxes T) (t : T) : ℚ :=
  agg.neerslag t * 6 + agg.kwel t * 400 + agg.verhard t * 10 + agg.drain t * 70 +
    agg.uitspoeling t * 70 + agg.afstroming t * 35 + agg.inlaat t * 100

/-- The outgoing-volume series V_out of eag.py line 226, the row-wise
sum of the intrek, uitlaat and wegzijging columns. -/
def vOut (agg : AggFluxes T) (t : T) : ℚ :=
  agg.intrek t + agg.uitlaat t + agg.wegzijging t

/-- The strictly time-ordered mass loop of eag.py lines 228-236,
carrying the running mass M and the outgoing concentration C_out and
recording Mass.loc[t] = M at every step; the division updating C_out is
the unguarded float division by storage.loc[t]. -/
def chlMass (agg : AggFluxes T) (storage : T → ℚ) :
    List T → Option ℚ → Option ℚ → List (T × Option ℚ)
  | [], _, _ => []
  | t :: ts, M, C_out =>
    let M' := fadd M (fadd (some (massIn agg t)) (fmul (some (vOut agg t)) C_out))
    (t, M') :: chlMass agg storage ts M' (fdiv M' (some (storage t)))

namespace Eag

/-- The body of Eag.calculate_chloride_concentration after the hTarget
and hBottom lookups succeeded (eag.py lines 221-240): initial volume
(hTarget - hBottom) * water.area, initial mass C_init * V_init with
C_init = 90, initial outgoing concentration 90, the mass loop over
fluxes.index, and the final series C = Mass / storage. -/
def chlorideFromLevels (hTarget hBottom : ℚ) (buckets : List Bucket)
    (water : Water T) : List (T × Option ℚ) :=
  let agg := aggregate_fluxes buckets water.fluxes
  let V_init := (hTarget - hBottom) * water.area
  let Mass := chlMass agg water.storage water.fluxes.index (some (90 * V_init)) (some 90)
  Mass.map fun pr => (pr.1, fdiv pr.2 (some (water.storage pr.1)))

/-- Eag.calculate_chloride_concentration (eag.py lines 190-240).  The
hTarget value is self.parameters rows with Code equal to hTarget, Waarde
column, .values[0]: the first matching row, IndexError when there is
none; hTarget is looked up before hBottom. -/
def calculate_chloride_concentration (params : List ParamRow)
    (buckets : List Bucket) (water : Water T) :
    Except ChlErr (List (T × Option ℚ)) :=
  match (params.filter fun r => r.Code = "hTarget").head? with
  | none => .error (.indexError "hTarget")
  | some rT =>
    match (params.filter fun r => r.Code = "hBottom").head? with
    | none => .error (.indexError "hBottom")
    | some rB => .ok (chlorideFromLevels rT.Waarde rB.Waarde buckets water)

end Eag

/-- Modelled from the spec, for the refinement claim about the chloride
recurrence: the per-step incoming mass, the sum over the categories
neerslag 6, kwel 400, verhard 10, drain 70, uitspoeling 70,
afstroming 35, inlaat 100 of aggregated flux times concentration. -/
def specMassIn (agg : AggFluxes T) (t : T) : ℚ :=
  agg.neerslag t * 6 + agg.kwel t * 400 + agg.verhard t * 10 + agg.drain t * 70 +
    agg.uitspoeling t * 70 + agg.afstroming t * 35 + agg.inlaat t * 100

/-- Modelled from the spec: the mass recurrence in exact arithmetic,
evaluated strictly in increasing time order; at each step t the mass
becomes mass + mass_in(t) + mass_out(t) with
mass_out(t) = (intrek(t) + uitlaat(t) + wegzijging(t)) * C_out of the
previous step, and C_out is updated to mass(t) / storage(t). -/
def specMassRec (agg : AggFluxes T) (storage : T → ℚ) :
    List T → ℚ → ℚ → List (T × ℚ)
  | [], _, _ => []
  | t :: ts, M, C_out =>
    let M' := M + specMassIn agg t + (agg.intrek t + agg.uitlaat t + agg.wegzijging t) * C_out
    (t, M') :: specMassRec agg storage ts M' (M' / storage t)

/-- Modelled from the spec: the chloride series, starting from
mass = 90 * (hTarget - hBottom) * area and C_out = 90, with final
concentration C(t) = mass(t) / storage(t) for every t of the index. -/
def specChloride (agg : AggFluxes T) (storage : T → ℚ)
    (area hTarget hBottom : ℚ) : List (T × ℚ) :=
  (specMassRec agg storage agg.index (90 * ((hTarget - hBottom) * area)) 90).map
    fun pr => (pr.1, pr.2 / storage pr.1)

/-- A Python exception raised by the composition methods or by dynamic
attribute lookup. -/
inductive PyErr where
  | keyError (msg : String)
  | attributeError (attr : String)
  deriving DecidableEq, Repr

/-- A stand-in for a WaterBase instance handed to Eag.add_water; only
object identity matters to the claims, carried here as a number. -/
structure WaterStub where
  id : Nat
  deriving DecidableEq, Repr

/-- The mutable composition state of an Eag: the buckets OrderedDict and
the optional water bucket (eag.py lines 39-40). -/
structure EagState where
  buckets : List (Nat × Bucket)
  water : Option WaterStub
  deriving DecidableEq, Repr

/-- OrderedDict assignment d[k] = v: replace in place when the key
exists, append at the end otherwise. -/
def dictSet {α β : Type} [DecidableEq α] : List (α × β) → α → β → List (α × β)
  | [], k, v => [(k, v)]
  | (k', v') :: rest, k, v =>
    if k' = k then (k, v) :: rest else (k', v') :: dictSet rest k v

namespace Eag

/-- Eag.add_bucket (eag.py lines 53-68): raises KeyError and leaves the
state untouched when the bucket id is already a key and replace is
False, otherwise assigns self.buckets[bucket.id] = bucket.  The result
pairs the post-call state with the exception, if any. -/
def add_bucket (s : EagState) (bucket : Bucket) (replace : Bool) :
    EagState × Option PyErr :=
  if (s.buckets.lookup bucket.id).isSome ∧ replace = false then
    (s, some (.keyError "bucket with this id is already in buckets dict."))
  else
    ({ s with buckets := dictSet s.buckets bucket.id bucket }, none)

/-- Eag.add_water (eag.py lines 70-86): raises KeyError and leaves the
state untouched when a water bucket is already present and replace is
False, otherwise stores the water bucket. -/
def add_water (s : EagState) (water : WaterStub) (replace : Bool) :
    EagState × Option PyErr :=
  if s.water.isSome ∧ replace = false then
    (s, some (.keyError "There is already a water bucket present in the model."))
  else
    ({ s with water := some water }, none)

/-- Eag.simulate (eag.py lines 111-135), observed as the ordered list of
simulate invocations it issues: for every bucket of the OrderedDict, in
order, the pair of the bucket id and the Waarde column of the parameter
rows whose Bakjes_ID equals that id, followed by the same for the water
bucket id.  The set_index call on lines 125-126 only relabels parameter
rows with the composite Code and LaagVolgorde label; the row contents
filtered here are unchanged by it. -/
def simulate (buckets : List Bucket) (waterId : Nat) (params : List ParamRow) :
    List (Nat × List ℚ) :=
  (buckets.map fun b =>
    (b.id, (params.filter fun r => r.Bakjes_ID = b.id).map ParamRow.Waarde)) ++
  [(waterId, (params.filter fun r => r.Bakjes_ID = waterId).map ParamRow.Waarde)]

end Eag

/-- A series DataFrame: a partial mapping from column name to column. -/
def SeriesTable (T : Type) := String → Option (T → ℚ)

/-- Column assignment s[col] = v on a series DataFrame. -/
def tableSet (s : SeriesTable T) (col : String) (v : T → ℚ) : SeriesTable T :=
  fun c => if c = col then some v else s c

namespace Eag

/-- Eag.load_series_from_gaf (eag.py lines 88-94): the two assignments
self.series[prec] = gaf.series[prec] and then
self.series[evap] = gaf.series[prec]; the second right-hand side reads
the prec column of the Gaf series, not evap. -/
def load_series_from_gaf (eagSeries : SeriesTable T)
    (gafSeries : String → T → ℚ) : SeriesTable T :=
  tableSet (tableSet eagSeries "prec" (gafSeries "prec")) "evap" (gafSeries "prec")

end Eag

/-- A Python object handed to the Gaf composition methods: either an Eag
instance or some other object; both are duck-typed with a name
attribute, which is all gaf.py reads from them. -/
inductive PyObj where
  | eagObj (id : Nat) (name : String)
  | otherObj (name : String)
  deriving DecidableEq, Repr

/-- The name attribute read by gaf.py lines 35 and 48. -/
def PyObj.pyName : PyObj → String
  | .eagObj _ n => n
  | .otherObj n => n

/-- The method names the Eag class defines in eag.py; dynamic attribute
lookup of anything else on an Eag instance raises AttributeError. -/
def eagMethods : List String :=
  ["add_bucket", "add_water", "load_series_from_gaf", "get_init_parameters",
   "simulate", "aggregate_fluxes", "calculate_chloride_concentration",
   "calculate_fractions"]

/-- Dynamic method lookup on an Eag instance. -/
def eagGetMethod (attr : String) : Except PyErr Unit :=
  if attr ∈ eagMethods then .ok () else .error (.attributeError attr)

/-- One row of the region-level parameter table, with the EAGCode column
gaf.py filters on. -/
structure GafParamRow where
  EAGCode : String
  Waarde : ℚ
  deriving DecidableEq, Repr

namespace Gaf

/-- The eags-population loop of Gaf.__init__ (gaf.py lines 31-37):
isinstance Eag values are assigned into the name-keyed OrderedDict,
anything else only triggers a printed warning and is dropped. -/
def init_eags (eags : List PyObj) : List (String × PyObj) :=
  eags.foldl
    (fun d e =>
      match e with
      | .eagObj i n => dictSet d (PyObj.eagObj i n).pyName (PyObj.eagObj i n)
      | .otherObj _ => d)
    []

/-- Gaf.add_eag (gaf.py lines 47-48): the unconditional assignment
self.eags[eag.name] = eag, with no isinstance check and no duplicate
check. -/
def add_eag (d : List (String × PyObj)) (e : PyObj) : List (String × PyObj) :=
  dictSet d e.pyName e

/-- Gaf.simulate (gaf.py lines 100-107), observed as the ordered list of
per-eag simulate dispatches: for every eag of the OrderedDict, first the
attribute lookup eag.get_series_from_gaf (the method the Eag class
actually defines is named load_series_from_gaf), then the parameter rows
whose EAGCode equals the eag name are recorded as that eag's simulate
argument. -/
def simulate (eags : List (String × PyObj)) (parameters : List GafParamRow) :
    Except PyErr (List (String × List GafParamRow)) :=
  eags.foldlM
    (fun acc e => do
      let _ ← eagGetMethod "get_series_from_gaf"
      pure (acc ++ [(e.1, parameters.filter fun r => r.EAGCode = e.1)]))
    []

end Gaf

/-- Concrete fixture: a water flux table over natural-number time with
every column zero. -/
def wfZero (idx : List ℕ) : WaterFluxes ℕ where
  index := idx
  p := fun _ => 0
  e := fun _ => 0
  s := fun _ => 0
  w := fun _ => 0
  x := fun _ => 0
  q_out := fun _ => 0
  q_oa := fun _ _ => 0
  q_ui := fun _ _ => 0

/-- Concrete fixture: zero fluxes except a vertical exchange of one on
every bucket column. -/
def wfQuiOne : WaterFluxes ℕ :=
  { wfZero [0] with q_ui := fun _ _ => 1 }

/-- Concrete fixture: a water bucket with unit area and zero fluxes. -/
def waterFix (idx : List ℕ) (stor : ℕ → ℚ) : Water ℕ where
  id := 0
  area := 1
  storage := stor
  fluxes := wfZero idx

/-- Concrete fixture: a parameter table with one hTarget row of value 0
and one hBottom row of value -1. -/
def paramsFix : List ParamRow :=
  [⟨0, "hTarget", 1, 0⟩, ⟨0, "hBottom", 1, -1⟩]

/-- Concrete fixture: a parameter table where the code hTarget matches
two rows with different values. -/
def paramsAmbiguous : List ParamRow :=
  [⟨0, "hTarget", 1, 5⟩, ⟨0, "hTarget", 2, 7⟩, ⟨0, "hBottom", 1, 1⟩]

/-- Pointwise value of the negative clamp as a max. -/
theorem clampNeg_eq_max (c : T → ℚ) (t : T) : clampNeg c t = max 0 (c t) := by
  unfold clampNeg
  rcases lt_or_le (c t) 0 with h | h
  · rw [if_pos h, max_eq_left h.le]
  · rw [if_neg (not_lt.mpr h), max_eq_right h]

/-- Pointwise value of the positive clamp as a min. -/
theorem clampPos_eq_min (c : T → ℚ) (t : T) : clampPos c t = min 0 (c t) := by
  unfold clampPos
  rcases lt_or_le 0 (c t) with h | h
  · rw [if_pos h, min_eq_left h.le]
  · rw [if_neg (not_lt.mpr h), min_eq_right h]

/-- Row value of a clamped-negative column selection as a sum of maxes. -/
theorem sumCols_clampNeg (ids : List Nat) (q : Nat → T → ℚ) (t : T) :
    sumCols (ids.map fun i => clampNeg (q i)) t =
      (ids.map fun i => max 0 (q i t)).sum := by
  unfold sumCols
  rw [List.map_map]
  refine congrArg List.sum (List.map_congr_left fun i _ => ?_)
  exact clampNeg_eq_max (q i) t

/-- Row value of a clamped-positive column selection as a sum of mins. -/
theorem sumCols_clampPos (ids : List Nat) (q : Nat → T → ℚ) (t : T) :
    sumCols (ids.map fun i => clampPos (q i)) t =
      (ids.map fun i => min 0 (q i t)).sum := by
  unfold sumCols
  rw [List.map_map]
  refine congrArg List.sum (List.map_congr_left fun i _ => ?_)
  exact clampPos_eq_min (q i) t

/-- Splitting a mapped sum along a filter and its complement. -/
theorem sum_map_filter_split {α : Type} (l : List α) (p : α → Bool) (f : α → ℚ) :
    (l.map f).sum =
      ((l.filter p).map f).sum + ((l.filter fun a => !(p a)).map f).sum := by
  induction l with
  | nil => simp
  | cons a l ih =>
    cases h : p a <;> simp [List.filter_cons, h, ih] <;> ring

/-- A mapped sum of differences is the difference of mapped sums. -/
theorem sum_map_sub {α : Type} (l : List α) (f g : α → ℚ) :
    (l.map fun a => f a - g a).sum = (l.map f).sum - (l.map g).sum := by
  induction l with
  | nil => simp
  | cons a l ih => simp [ih]; ring

/-- Dividing by an exact zero always yields a non-finite float. -/
theorem fdiv_zero_right (m : Option ℚ) : fdiv m (some 0) = none := by
  cases m <;> simp [fdiv]

/-- A non-finite numerator keeps the quotient non-finite. -/
theorem fdiv_none_left (m : Option ℚ) : fdiv none m = none := by
  cases m <;> rfl

/-- The mass loop emits one record per time step. -/
theorem chlMass_length (agg : AggFluxes T) (storage : T → ℚ) (ts : List T)
    (M C : Option ℚ) : (chlMass agg storage ts M C).length = ts.length := by
  induction ts generalizing M C with
  | nil => rfl
  | cons t ts ih => simp [chlMass, ih]

/-- Once the outgoing concentration is non-finite, every later mass
record of the loop is non-finite. -/
theorem chlMass_poison (agg : AggFluxes T) (storage : T → ℚ) (ts : List T)
    (M : Option ℚ) :
    chlMass agg storage ts M none = ts.map fun t => (t, (none : Option ℚ)) := by
  induction ts generalizing M with
  | nil => rfl
  | cons t ts ih =>
    have hM : fadd M (fadd (some (massIn agg t)) (fmul (some (vOut agg t)) none)) =
        none := by
      cases M <;> rfl
    simp only [chlMass, hM, List.map_cons]
    exact congrArg _ (by simpa [fdiv] using ih none)

/-- The mass loop over an appended index splits into the loop over the
first part followed by the loop over the second part from some
intermediate state. -/
theorem chlMass_append (agg : AggFluxes T) (storage : T → ℚ) (l1 l2 : List T)
    (M C : Option ℚ) :
    ∃ M1 C1, chlMass agg storage (l1 ++ l2) M C =
      chlMass agg storage l1 M C ++ chlMass agg storage l2 M1 C1 := by
  induction l1 generalizing M C with
  | nil => exact ⟨M, C, rfl⟩
  | cons t ts ih =>
    obtain ⟨M1, C1, h⟩ := ih
      (fadd M (fadd (some (massIn agg t)) (fmul (some (vOut agg t)) C)))
      (fdiv (fadd M (fadd (some (massIn agg t)) (fmul (some (vOut agg t)) C)))
        (some (storage t)))
    exact ⟨M1, C1, by simp only [List.cons_append, chlMass, List.append_eq, h]⟩

/-- The mass loop agrees with the exact-arithmetic spec recurrence as
long as every storage value on the index is nonzero. -/
theorem chlMass_spec (agg : AggFluxes T) (storage : T → ℚ) (ts : List T)
    (hs : ∀ t ∈ ts, storage t ≠ 0) (M C : ℚ) :
    chlMass agg storage ts (some M) (some C) =
      (specMassRec agg storage ts M C).map fun pr => (pr.1, some pr.2) := by
  induction ts generalizing M C with
  | nil => rfl
  | cons t ts ih =>
    have ht : storage t ≠ 0 := hs t (List.mem_cons_self t ts)
    have hrest : ∀ u ∈ ts, storage u ≠ 0 := fun u hu => hs u (List.mem_cons_of_mem t hu)
    have harg : M + (massIn agg t + vOut agg t * C) =
        M + specMassIn agg t +
          (agg.intrek t + agg.uitlaat t + agg.wegzijging t) * C := by
      simp only [massIn, specMassIn, vOut]; ring
    simp only [chlMass, specMassRec, fadd, fmul, fdiv, if_neg ht, List.map_cons]
    rw [harg, ih hrest]

/-- Every time stamp emitted by the spec recurrence comes from the
index it was run over. -/
theorem specMassRec_fst_mem (agg : AggFluxes T) (storage : T → ℚ) (ts : List T)
    (M C : ℚ) (pr : T × ℚ) (h : pr ∈ specMassRec agg storage ts M C) :
    pr.1 ∈ ts := by
  induction ts generalizing M C with
  | nil => cases h
  | cons t ts ih =>
    simp only [specMassRec, List.mem_cons] at h
    rcases h with h | h
    · subst h; exact List.mem_cons_self _ _
    · exact List.mem_cons_of_mem _ (ih _ _ h)

/-- Assigning a key in an ordered dictionary makes it the value found at
that key. -/
theorem dictSet_lookup_self {β : Type} (d : List (String × β)) (k : String)
    (v : β) : (dictSet d k v).lookup k = some v := by
  induction d with
  | nil => simp [dictSet, List.lookup]
  | cons pr rest ih =>
    obtain ⟨k', v'⟩ := pr
    by_cases h : k' = k
    · simp [dictSet, h, List.lookup]
    · have hf : (k == k') = false := beq_eq_false_iff_ne.mpr fun hkk => h hkk.symm
      simp only [dictSet, if_neg h, List.lookup]
      simp [hf, ih]

/-- Assigning one key in an ordered dictionary leaves every other key
unchanged. -/
theorem dictSet_lookup_other {β : Type} (d : List (String × β)) (k k' : String)
    (v : β) (hk : k' ≠ k) : (dictSet d k v).lookup k' = d.lookup k' := by
  have hf : (k' == k) = false := beq_eq_false_iff_ne.mpr hk
  induction d with
  | nil => simp [dictSet, List.lookup, hf]
  | cons pr rest ih =>
    obtain ⟨a, b⟩ := pr
    by_cases h : a = k
    · subst h
      simp [dictSet, List.lookup, hf]
    · simp only [dictSet, if_neg h, List.lookup]
      cases hb : (k' == a) <;> simp [hb, ih]

/-- Ordered-dictionary assignment preserves a property shared by every
stored value and the newly assigned value. -/
theorem dictSet_forall {β : Type} (P : β → Prop) (d : List (String × β))
    (k : String) (v : β) (hd : ∀ pr ∈ d, P pr.2) (hv : P v) :
    ∀ pr ∈ dictSet d k v, P pr.2 := by
  induction d with
  | nil =>
    intro pr hpr
    simp only [dictSet, List.mem_singleton] at hpr
    subst hpr; exact hv
  | cons a rest ih =>
    intro pr hpr
    obtain ⟨k', v'⟩ := a
    by_cases h : k' = k
    · simp only [dictSet, if_pos h, List.mem_cons] at hpr
      rcases hpr with h1 | h1
      · subst h1; exact hv
      · exact hd pr (List.mem_cons_of_mem _ h1)
    · simp only [dictSet, if_neg h, List.mem_cons] at hpr
      rcases hpr with h1 | h1
      · subst h1; exact hd _ (List.mem_cons_self _ _)
      · exact ih (fun q hq => hd q (List.mem_cons_of_mem _ hq)) pr h1

/-- Every value stored by the eags-population loop of Gaf.__init__ is an
Eag instance: non-Eag inputs are dropped with a warning. -/
theorem init_eags_only (l : List PyObj) :
    ∀ pr ∈ Gaf.init_eags l, ∃ i n, pr.2 = PyObj.eagObj i n := by
  have go : ∀ (l' : List PyObj) (acc : List (String × PyObj)),
      (∀ pr ∈ acc, ∃ i n, pr.2 = PyObj.eagObj i n) →
      ∀ pr ∈ List.foldl
        (fun d e =>
          match e with
          | PyObj.eagObj i n => dictSet d (PyObj.eagObj i n).pyName (PyObj.eagObj i n)
          | PyObj.otherObj _ => d) acc l',
      ∃ i n, pr.2 = PyObj.eagObj i n := by
    intro l'
    induction l' with
    | nil => intro acc hacc; simpa using hacc
    | cons e l' ih =>
      intro acc hacc pr hpr
      simp only [List.foldl_cons] at hpr
      refine ih _ ?_ pr hpr
      cases e with
      | eagObj i n =>
        exact dictSet_forall (fun v => ∃ i' n', v = PyObj.eagObj i' n') acc _ _
          hacc ⟨i, n, rfl⟩
      | otherObj nm => exact hacc
  exact go l [] (by simp)

/-- C2: aggregate_fluxes computes the uitspoeling column as the sum over
exactly the Verhard and Onverhard buckets of their vertical-exchange
column with negative values replaced by zero before summing, the intrek
column as the sum over all buckets of their vertical-exchange column
with positive values replaced by zero before summing, and a unit with
zero buckets of a referenced type gets the all-zero series for the
corresponding category rather than an error. -/
theorem C2_aggregate_category_sums (buckets : List Bucket) (wf : WaterFluxes T)
    (t : T) :
    (Eag.aggregate_fluxes buckets wf).uitspoeling t =
      ((buckets.filter fun b => b.name = "Verhard" ∨ b.name = "Onverhard").map
        fun b => max 0 (wf.q_ui b.id t)).sum ∧
    (Eag.aggregate_fluxes buckets wf).intrek t =
      (buckets.map fun b => min 0 (wf.q_ui b.id t)).sum ∧
    ((buckets.filter fun b => b.name = "Verhard" ∨ b.name = "Onverhard") = [] →
      (Eag.aggregate_fluxes buckets wf).uitspoeling t = 0) := by
  have hdef1 : (Eag.aggregate_fluxes buckets wf).uitspoeling =
      sumCols (((buckets.filter fun b =>
        b.name = "Verhard" ∨ b.name = "Onverhard").map Bucket.id).map
          fun i => clampNeg (wf.q_ui i)) := rfl
  have hdef2 : (Eag.aggregate_fluxes buckets wf).intrek =
      sumCols ((buckets.map Bucket.id).map fun i => clampPos (wf.q_ui i)) := rfl
  have h1 : (Eag.aggregate_fluxes buckets wf).uitspoeling t =
      ((buckets.filter fun b => b.name = "Verhard" ∨ b.name = "Onverhard").map
        fun b => max 0 (wf.q_ui b.id t)).sum := by
    rw [hdef1, sumCols_clampNeg, List.map_map]
    rfl
  have h2 : (Eag.aggregate_fluxes buckets wf).intrek t =
      (buckets.map fun b => min 0 (wf.q_ui b.id t)).sum := by
    rw [hdef2, sumCols_clampPos, List.map_map]
    rfl
  refine ⟨h1, h2, fun hempty => ?_⟩
  rw [h1, hempty]
  rfl

/-- C2 witness: a unit whose only bucket is a Drain bucket has empty
Verhard and Onverhard selections, so its uitspoeling column is zero. -/
theorem C2_aggregate_category_sums_witness :
    (Eag.aggregate_fluxes [⟨3, "Drain"⟩] wfQuiOne).uitspoeling 0 =
      ((([⟨3, "Drain"⟩] : List Bucket).filter fun b =>
        b.name = "Verhard" ∨ b.name = "Onverhard").map
          fun b => max 0 (wfQuiOne.q_ui b.id 0)).sum ∧
    (Eag.aggregate_fluxes [⟨3, "Drain"⟩] wfQuiOne).intrek 0 =
      (([⟨3, "Drain"⟩] : List Bucket).map fun b => min 0 (wfQuiOne.q_ui b.id 0)).sum ∧
    (Eag.aggregate_fluxes [⟨3, "Drain"⟩] wfQuiOne).uitspoeling 0 = 0 :=
  ⟨(C2_aggregate_category_sums [⟨3, "Drain"⟩] wfQuiOne 0).1,
   (C2_aggregate_category_sums [⟨3, "Drain"⟩] wfQuiOne 0).2.1,
   (C2_aggregate_category_sums [⟨3, "Drain"⟩] wfQuiOne 0).2.2 (by decide)⟩

/-- C3: Eag.simulate invokes each bucket simulate, in bucket order, with
exactly the Waarde column of the rows whose Bakjes_ID equals that bucket
identity, and the water aggregator simulate comes last, after every
bucket, with the rows owned by the aggregator identity. -/
theorem C3_simulate_dispatch (buckets : List Bucket) (waterId : Nat)
    (params : List ParamRow) :
    (Eag.simulate buckets waterId params).take buckets.length =
      (buckets.map fun b =>
        (b.id, (params.filter fun r => r.Bakjes_ID = b.id).map ParamRow.Waarde)) ∧
    (Eag.simulate buckets waterId params).getLast? =
      some (waterId,
        (params.filter fun r => r.Bakjes_ID = waterId).map ParamRow.Waarde) ∧
    (Eag.simulate buckets waterId params).length = buckets.length + 1 := by
  unfold Eag.simulate
  refine ⟨List.take_left' (by simp), ?_, by simp⟩
  simp

/-- C4 (evaluating the code at the failing input): simulating a Gaf that
holds one Eag raises AttributeError for get_series_from_gaf before any
unit is dispatched, because the Eag class only defines a method named
load_series_from_gaf. -/
theorem C4_gaf_simulate_attribute_error :
    Gaf.simulate [("A", PyObj.eagObj 1 "A")] [] =
      .error (.attributeError "get_series_from_gaf") := rfl

/-- C7: adding a bucket whose identity is already a key with replace
False raises KeyError and leaves the state unchanged, and with replace
True the bucket is replaced; adding a water bucket when one is present
with replace False raises KeyError and leaves the state unchanged, and
with replace True the water bucket is replaced. -/
theorem C7_add_bucket_add_water (s : EagState) (b : Bucket) (w : WaterStub)
    (hb : (s.buckets.lookup b.id).isSome = true) (hw : s.water.isSome = true) :
    Eag.add_bucket s b false =
      (s, some (.keyError "bucket with this id is already in buckets dict.")) ∧
    Eag.add_bucket s b true =
      ({ s with buckets := dictSet s.buckets b.id b }, none) ∧
    Eag.add_water s w false =
      (s, some (.keyError "There is already a water bucket present in the model.")) ∧
    Eag.add_water s w true = ({ s with water := some w }, none) := by
  refine ⟨?_, ?_, ?_, ?_⟩ <;> simp [Eag.add_bucket, Eag.add_water, hb, hw]

/-- Concrete fixture: an Eag composition state holding one bucket with
identity 1 and a water bucket. -/
def eagStateFix : EagState where
  buckets := [(1, ⟨1, "Verhard"⟩)]
  water := some ⟨7⟩

/-- C7 witness at a concrete state with a duplicate bucket identity and
an existing water bucket. -/
theorem C7_add_bucket_add_water_witness :
    Eag.add_bucket eagStateFix ⟨1, "Onverhard"⟩ false =
      (eagStateFix, some (.keyError "bucket with this id is already in buckets dict.")) ∧
    Eag.add_bucket eagStateFix ⟨1, "Onverhard"⟩ true =
      ({ eagStateFix with buckets := dictSet eagStateFix.buckets 1 ⟨1, "Onverhard"⟩ },
        none) ∧
    Eag.add_water eagStateFix ⟨9⟩ false =
      (eagStateFix, some (.keyError "There is already a water bucket present in the model.")) ∧
    Eag.add_water eagStateFix ⟨9⟩ true =
      ({ eagStateFix with water := some ⟨9⟩ }, none) :=
  C7_add_bucket_add_water eagStateFix ⟨1, "Onverhard"⟩ ⟨9⟩ (by decide) (by decide)

/-- An Eag occurring later in the construction list of Gaf.__init__ is
what ends up stored under its name, regardless of any earlier entry of
the same name: the loop assigns into the name-keyed OrderedDict without
any duplicate check. -/
theorem init_eags_last_wins (l : List PyObj) (i : Nat) (n : String) :
    (Gaf.init_eags (l ++ [PyObj.eagObj i n])).lookup n =
      some (PyObj.eagObj i n) := by
  have h : Gaf.init_eags (l ++ [PyObj.eagObj i n]) =
      dictSet (Gaf.init_eags l) n (PyObj.eagObj i n) := by
    unfold Gaf.init_eags
    rw [List.foldl_append]
    rfl
  rw [h]
  exact dictSet_lookup_self _ _ _

/-- C8 counterexample: a repeated name in the construction list makes
the later unit silently overwrite the earlier one, Gaf.add_eag silently
replaces the unit already stored under the same name, and add_eag
accepts a value that is not an Eag; no error is raised in any of the
three cases, refuting the claimed rejection. -/
theorem C8_counterexample :
    Gaf.init_eags [PyObj.eagObj 1 "A", PyObj.eagObj 2 "A"] =
      [("A", PyObj.eagObj 2 "A")] ∧
    Gaf.add_eag (Gaf.add_eag [] (PyObj.eagObj 1 "A")) (PyObj.eagObj 2 "A") =
      [("A", PyObj.eagObj 2 "A")] ∧
    Gaf.add_eag [] (PyObj.otherObj "X") = [("X", PyObj.otherObj "X")] :=
  ⟨rfl, rfl, rfl⟩

/-- C8 amended: construction with an initial list keeps only Eag values
(non-Eags are dropped with a warning) but a repeated name silently
overwrites, the later Eag of that name being the one stored; add_eag
performs no checks at all: it stores any value under its name, silently
replacing an existing unit of that name and leaving all other names
unchanged. -/
theorem C8_composition_amended (l : List PyObj) (d : List (String × PyObj))
    (e : PyObj) (k : String) (i : Nat) (n : String) (hk : k ≠ e.pyName) :
    (∀ pr ∈ Gaf.init_eags l, ∃ i' n', pr.2 = PyObj.eagObj i' n') ∧
    (Gaf.init_eags (l ++ [PyObj.eagObj i n])).lookup n =
      some (PyObj.eagObj i n) ∧
    (Gaf.add_eag d e).lookup e.pyName = some e ∧
    (Gaf.add_eag d e).lookup k = d.lookup k :=
  ⟨init_eags_only l, init_eags_last_wins l i n, dictSet_lookup_self d e.pyName e,
   dictSet_lookup_other d e.pyName k e hk⟩

/-- C8 amended witness at concrete inputs; the construction list handed
to the init conjuncts already contains an Eag named A, so the appended
Eag of the same name exercises the silent overwrite. -/
theorem C8_composition_amended_witness :
    (∀ pr ∈ Gaf.init_eags [PyObj.eagObj 1 "A", PyObj.otherObj "X"],
      ∃ i' n', pr.2 = PyObj.eagObj i' n') ∧
    (Gaf.init_eags ([PyObj.eagObj 1 "A", PyObj.otherObj "X"] ++
      [PyObj.eagObj 2 "A"])).lookup "A" = some (PyObj.eagObj 2 "A") ∧
    (Gaf.add_eag [("A", PyObj.eagObj 1 "A")] (PyObj.eagObj 2 "B")).lookup
      (PyObj.eagObj 2 "B").pyName = some (PyObj.eagObj 2 "B") ∧
    (Gaf.add_eag [("A", PyObj.eagObj 1 "A")] (PyObj.eagObj 2 "B")).lookup "A" =
      ([("A", PyObj.eagObj 1 "A")] : List (String × PyObj)).lookup "A" :=
  C8_composition_amended [PyObj.eagObj 1 "A", PyObj.otherObj "X"]
    [("A", PyObj.eagObj 1 "A")] (PyObj.eagObj 2 "B") "A" 2 "A" (by decide)

/-- C9 counterexample: for a Drain bucket with vertical exchange one,
uitspoeling minus intrek is zero while the unsigned total of vertical
exchange magnitude over all buckets is one, so the claimed equality
fails. -/
theorem C9_counterexample :
    ¬ ((Eag.aggregate_fluxes [⟨3, "Drain"⟩] wfQuiOne).uitspoeling 0 -
        (Eag.aggregate_fluxes [⟨3, "Drain"⟩] wfQuiOne).intrek 0 =
      (([⟨3, "Drain"⟩] : List Bucket).map fun b => |wfQuiOne.q_ui b.id 0|).sum) := by
  intro h
  simp [Eag.aggregate_fluxes, sumCols, clampNeg, clampPos, wfQuiOne, wfZero] at h

/-- C9 amended: the leaching column sums only non-negative parts over
the Verhard and Onverhard buckets and the infiltration column sums only
non-positive parts over all buckets, and their difference equals the
unsigned vertical-exchange magnitude summed over the Verhard and
Onverhard buckets minus the negative part summed over the remaining
buckets; the unsigned total over all buckets is reached only when every
bucket is Verhard or Onverhard. -/
theorem C9_sign_split_amended (buckets : List Bucket) (wf : WaterFluxes T)
    (t : T) :
    (Eag.aggregate_fluxes buckets wf).uitspoeling t =
      ((buckets.filter fun b => b.name = "Verhard" ∨ b.name = "Onverhard").map
        fun b => max 0 (wf.q_ui b.id t)).sum ∧
    (Eag.aggregate_fluxes buckets wf).intrek t =
      (buckets.map fun b => min 0 (wf.q_ui b.id t)).sum ∧
    (Eag.aggregate_fluxes buckets wf).uitspoeling t -
        (Eag.aggregate_fluxes buckets wf).intrek t =
      ((buckets.filter fun b => b.name = "Verhard" ∨ b.name = "Onverhard").map
        fun b => |wf.q_ui b.id t|).sum -
      ((buckets.filter fun b => ¬ (b.name = "Verhard" ∨ b.name = "Onverhard")).map
        fun b => min 0 (wf.q_ui b.id t)).sum := by
  have hdef1 : (Eag.aggregate_fluxes buckets wf).uitspoeling =
      sumCols (((buckets.filter fun b =>
        b.name = "Verhard" ∨ b.name = "Onverhard").map Bucket.id).map
          fun i => clampNeg (wf.q_ui i)) := rfl
  have hdef2 : (Eag.aggregate_fluxes buckets wf).intrek =
      sumCols ((buckets.map Bucket.id).map fun i => clampPos (wf.q_ui i)) := rfl
  have h1 : (Eag.aggregate_fluxes buckets wf).uitspoeling t =
      ((buckets.filter fun b => b.name = "Verhard" ∨ b.name = "Onverhard").map
        fun b => max 0 (wf.q_ui b.id t)).sum := by
    rw [hdef1, sumCols_clampNeg, List.map_map]
    rfl
  have h2 : (Eag.aggregate_fluxes buckets wf).intrek t =
      (buckets.map fun b => min 0 (wf.q_ui b.id t)).sum := by
    rw [hdef2, sumCols_clampPos, List.map_map]
    rfl
  have habs : ∀ x : ℚ, max 0 x - min 0 x = |x| := by
    intro x
    rw [max_sub_min_eq_abs, sub_zero]
  refine ⟨h1, h2, ?_⟩
  rw [h1, h2]
  rw [sum_map_filter_split buckets
    (fun b => decide (b.name = "Verhard" ∨ b.name = "Onverhard"))
    (fun b => min 0 (wf.q_ui b.id t))]
  have key : ((buckets.filter fun b =>
        b.name = "Verhard" ∨ b.name = "Onverhard").map
          fun b => max 0 (wf.q_ui b.id t)).sum -
      ((buckets.filter fun b => b.name = "Verhard" ∨ b.name = "Onverhard").map
        fun b => min 0 (wf.q_ui b.id t)).sum =
      ((buckets.filter fun b => b.name = "Verhard" ∨ b.name = "Onverhard").map
        fun b => |wf.q_ui b.id t|).sum := by
    rw [← sum_map_sub]
    exact congrArg List.sum (List.map_congr_left fun b _ => habs _)
  simp only [decide_not]
  linarith [key]

/-- C1: with hTarget and hBottom present as single parameter rows and a
populated storage series that is nonzero over the flux index,
calculate_chloride_concentration returns exactly the series of the spec
recurrence: mass starts at 90 * (hTarget - hBottom) * area with outgoing
concentration 90; at each step mass grows by the concentration-weighted
category fluxes (neerslag 6, kwel 400, verhard 10, drain 70,
uitspoeling 70, afstroming 35, inlaat 100) plus
(intrek + uitlaat + wegzijging) times the previous outgoing
concentration, which is then updated to mass / storage; and the returned
concentration is mass(t) / storage(t) at every t. -/
theorem C1_chloride_matches_spec (params : List ParamRow) (buckets : List Bucket)
    (water : Water T) (rT rB : ParamRow)
    (hT : (params.filter fun r => r.Code = "hTarget") = [rT])
    (hB : (params.filter fun r => r.Code = "hBottom") = [rB])
    (hs : ∀ t ∈ water.fluxes.index, water.storage t ≠ 0) :
    Eag.calculate_chloride_concentration params buckets water =
      .ok ((specChloride (Eag.aggregate_fluxes buckets water.fluxes)
        water.storage water.area rT.Waarde rB.Waarde).map
          fun pr => (pr.1, some pr.2)) := by
  have hcal : Eag.calculate_chloride_concentration params buckets water =
      .ok (Eag.chlorideFromLevels rT.Waarde rB.Waarde buckets water) := by
    unfold Eag.calculate_chloride_concentration
    rw [hT, hB]
    rfl
  rw [hcal]
  refine congrArg Except.ok ?_
  simp only [Eag.chlorideFromLevels, specChloride]
  have hidx : (Eag.aggregate_fluxes buckets water.fluxes).index =
      water.fluxes.index := rfl
  rw [hidx]
  rw [chlMass_spec (Eag.aggregate_fluxes buckets water.fluxes) water.storage
    water.fluxes.index hs]
  rw [List.map_map, List.map_map]
  refine List.map_congr_left fun pr hpr => ?_
  have hmem : pr.1 ∈ water.fluxes.index :=
    specMassRec_fst_mem _ _ _ _ _ pr hpr
  simp [Function.comp, fdiv, hs pr.1 hmem]

/-- C1 witness: one time step, empty bucket list, unit area and unit
storage, hTarget zero and hBottom minus one. -/
theorem C1_chloride_matches_spec_witness :
    Eag.calculate_chloride_concentration paramsFix [] (waterFix [0] fun _ => 1) =
      .ok ((specChloride
        (Eag.aggregate_fluxes [] (waterFix [0] fun _ => 1).fluxes)
        (waterFix [0] fun _ => 1).storage (waterFix [0] fun _ => 1).area
        (0 : ℚ) (-1 : ℚ)).map fun pr => (pr.1, some pr.2)) :=
  C1_chloride_matches_spec paramsFix [] (waterFix [0] fun _ => 1)
    ⟨0, "hTarget", 1, 0⟩ ⟨0, "hBottom", 1, -1⟩ (by decide) (by decide) (by decide)

/-- C5 counterexample: with storage identically zero and one time step,
calculate_chloride_concentration does not raise any error: it returns ok
with a non-finite concentration value, refuting the claim that an
arithmetic-degeneracy error is signalled at the division. -/
theorem C5_counterexample :
    Eag.calculate_chloride_concentration paramsFix [] (waterFix [0] fun _ => 0) =
      .ok [(0, (none : Option ℚ))] := by
  have hcal : Eag.calculate_chloride_concentration paramsFix []
      (waterFix [0] fun _ => 0) =
      .ok (Eag.chlorideFromLevels 0 (-1) [] (waterFix [0] fun _ => 0)) := rfl
  rw [hcal]
  refine congrArg Except.ok ?_
  simp [Eag.chlorideFromLevels, chlMass, waterFix, wfZero, fdiv_zero_right]

/-- C5 amended: with a zero storage value at some index position, the
computation does not signal an error; it returns ok, the division at
that step yields a non-finite value, and that value poisons the rest of
the recurrence, so the returned concentration is non-finite at that
step and at every later step. -/
theorem C5_degenerate_storage_amended (params : List ParamRow)
    (buckets : List Bucket) (water : Water T) (rT rB : ParamRow)
    (pre post : List T) (t : T)
    (hT : (params.filter fun r => r.Code = "hTarget").head? = some rT)
    (hB : (params.filter fun r => r.Code = "hBottom").head? = some rB)
    (hidx : water.fluxes.index = pre ++ t :: post)
    (hst : water.storage t = 0) :
    ∃ outPre, outPre.length = pre.length ∧
      Eag.calculate_chloride_concentration params buckets water =
        .ok (outPre ++ (t, (none : Option ℚ)) ::
          (post.map fun s => (s, (none : Option ℚ)))) := by
  have hcal : Eag.calculate_chloride_concentration params buckets water =
      .ok (Eag.chlorideFromLevels rT.Waarde rB.Waarde buckets water) := by
    unfold Eag.calculate_chloride_concentration
    rw [hT, hB]
  obtain ⟨M1, C1, hsplit⟩ := chlMass_append
    (Eag.aggregate_fluxes buckets water.fluxes) water.storage pre (t :: post)
    (some (90 * ((rT.Waarde - rB.Waarde) * water.area))) (some 90)
  refine ⟨(chlMass (Eag.aggregate_fluxes buckets water.fluxes) water.storage pre
      (some (90 * ((rT.Waarde - rB.Waarde) * water.area))) (some 90)).map
        (fun pr => (pr.1, fdiv pr.2 (some (water.storage pr.1)))), ?_, ?_⟩
  · rw [List.length_map, chlMass_length]
  · rw [hcal]
    refine congrArg Except.ok ?_
    simp only [Eag.chlorideFromLevels]
    rw [hidx, hsplit, List.map_append]
    congr 1
    simp only [chlMass]
    rw [hst, fdiv_zero_right, chlMass_poison]
    simp [fdiv_none_left, fdiv_zero_right, hst, List.map_map, Function.comp]

/-- C5 amended witness: two time steps with storage identically zero;
the degeneracy at the first step makes both outputs non-finite. -/
theorem C5_degenerate_storage_amended_witness :
    ∃ outPre : List (ℕ × Option ℚ), outPre.length = ([] : List ℕ).length ∧
      Eag.calculate_chloride_concentration paramsFix []
        (waterFix [0, 1] fun _ => 0) =
        .ok (outPre ++ (0, (none : Option ℚ)) ::
          (([1] : List ℕ).map fun s => (s, (none : Option ℚ)))) :=
  C5_degenerate_storage_amended paramsFix [] (waterFix [0, 1] fun _ => 0)
    ⟨0, "hTarget", 1, 0⟩ ⟨0, "hBottom", 1, -1⟩ [] [1] 0
    (by decide) (by decide) rfl rfl

/-- C6 counterexample: a parameter table in which hTarget matches two
rows with different values does not raise any ambiguity error:
calculate_chloride_concentration returns ok, silently using the first
match. -/
theorem C6_counterexample :
    Eag.calculate_chloride_concentration paramsAmbiguous []
      (waterFix [] fun _ => 1) = .ok [] := rfl

/-- C6 amended: the computation fails with IndexError exactly when the
code hTarget or the code hBottom matches no parameter row; when each
matches at least one row it succeeds, using the value of the first
matching row of each code, with no error for multiple (ambiguous)
matches. -/
theorem C6_parameter_lookup_amended (params : List ParamRow)
    (buckets : List Bucket) (water : Water T) :
    ((∃ e, Eag.calculate_chloride_concentration params buckets water = .error e) ↔
      ((params.filter fun r => r.Code = "hTarget").head? = none ∨
       (params.filter fun r => r.Code = "hBottom").head? = none)) ∧
    (∀ rT rB, (params.filter fun r => r.Code = "hTarget").head? = some rT →
      (params.filter fun r => r.Code = "hBottom").head? = some rB →
      Eag.calculate_chloride_concentration params buckets water =
        .ok (Eag.chlorideFromLevels rT.Waarde rB.Waarde buckets water)) := by
  have hok : ∀ rT rB, (params.filter fun r => r.Code = "hTarget").head? = some rT →
      (params.filter fun r => r.Code = "hBottom").head? = some rB →
      Eag.calculate_chloride_concentration params buckets water =
        .ok (Eag.chlorideFromLevels rT.Waarde rB.Waarde buckets water) := by
    intro rT rB hT hB
    unfold Eag.calculate_chloride_concentration
    rw [hT, hB]
  refine ⟨⟨?_, ?_⟩, hok⟩
  · rintro ⟨e, he⟩
    by_contra hcon
    push_neg at hcon
    obtain ⟨h1, h2⟩ := hcon
    obtain ⟨rT, hT⟩ := Option.ne_none_iff_exists'.mp h1
    obtain ⟨rB, hB⟩ := Option.ne_none_iff_exists'.mp h2
    rw [hok rT rB hT hB] at he
    simp at he
  · intro h
    unfold Eag.calculate_chloride_concentration
    rcases h with h | h
    · rw [h]
      exact ⟨.indexError "hTarget", rfl⟩
    · cases hT : (params.filter fun r => r.Code = "hTarget").head? with
      | none =>
        exact ⟨.indexError "hTarget", rfl⟩
      | some rT =>
        rw [h]
        exact ⟨.indexError "hBottom", rfl⟩

/-- C6 amended witness: with two hTarget rows of values 5 and 7, the
computation succeeds using the first value 5. -/
theorem C6_parameter_lookup_amended_witness :
    Eag.calculate_chloride_concentration paramsAmbiguous []
      (waterFix [] fun _ => 1) =
      .ok (Eag.chlorideFromLevels (5 : ℚ) (1 : ℚ) [] (waterFix [] fun _ => 1)) :=
  (C6_parameter_lookup_amended paramsAmbiguous [] (waterFix [] fun _ => 1)).2
    ⟨0, "hTarget", 1, 5⟩ ⟨0, "hBottom", 1, 1⟩ (by decide) (by decide)

/-- C10: load_series_from_gaf writes the precipitation series of the Gaf
into both the prec column and the evap column of the unit series, so the
unit evaporation input is the regional precipitation series. -/
theorem C10_evap_gets_prec (s : SeriesTable T) (g : String → T → ℚ) :
    Eag.load_series_from_gaf s g "prec" = some (g "prec") ∧
    Eag.load_series_from_gaf s g "evap" = some (g "prec") :=
  ⟨rfl, rfl⟩

end Waterbalans
